import Mathlib

/- Verification of the execution scheduler and lifecycle engine of
   arewefastyet (go/exec/exec.go: the `exec` package's run lifecycle and the
   `server` package's execution queue): a shallow embedding of the run record
   store, the Exec lifecycle (Prepare / Execute), the execution queue with its
   dispatch loop and retry policy, and the regression comparator loop. -/

namespace Arewefastyet

/-- Status values stored in the `execution` table (the Go constants
`StatusCreated`, `StatusStarted`, `StatusFinished`, `StatusFailed`). -/
inductive ExecStatus
  | created
  | started
  | finished
  | failed
  deriving DecidableEq, Repr

/-- One row of the `execution` table, with exactly the columns written by
`Exec.Prepare`'s INSERT (uuid, status, source, git_ref, type) together with
the timestamp columns touched by `Exec.Execute`'s UPDATE statements
(started_at, finished_at, modelled as abstract instants). -/
structure ExecutionRow where
  uuid : String
  status : ExecStatus
  source : String
  gitRef : String
  typeOf : String
  startedAt : Option Nat
  finishedAt : Option Nat
  deriving DecidableEq, Repr

/-- The run record store: the rows of the `execution` table. -/
abbrev ExecutionStore := List ExecutionRow

/-- The WHERE clause of `Exists`'s SELECT:
`status = ? AND git_ref = ? AND type = ? AND source = ?`. -/
def rowMatchesExists (gitRef source typeOf : String) (status : ExecStatus)
    (r : ExecutionRow) : Bool :=
  r.status == status && r.gitRef == gitRef && r.typeOf == typeOf && r.source == source

/-- Embeds `exec.Exists(clientDB, gitRef, source, typeOf, status)`.
`dbOk` says whether the SELECT succeeds; when it fails the Go function
returns `(false, err)`. When it succeeds it returns `result.Next()`:
true exactly when at least one row matches the predicate. -/
def existsExecution (dbOk : Bool) (st : ExecutionStore) (gitRef source typeOf : String)
    (status : ExecStatus) : Bool × Option Unit :=
  if dbOk then
    (!(st.filter (rowMatchesExists gitRef source typeOf status)).isEmpty, none)
  else
    (false, some ())

/-- Modelled from the spec: the composite run identifier (`executionIdentifier`
in the `server` package; its declaration is outside these sources, its fields
are the ones used by `executeSingle`, `compareElement` and
`checkIfExecutionExists`): trigger source, git reference, benchmark type,
planner version and pull request number. -/
structure executionIdentifier where
  Source : String
  GitRef : String
  BenchmarkType : String
  PlannerVersion : String
  PullNb : Nat
  deriving DecidableEq, Repr

/-- The loop body of `Server.checkIfExecutionExists` over its `checkStatus`
list: for each status, query the store (via `exec.Exists` for micro
benchmarks, via `exec.ExistsMacrobenchmark` otherwise); a store error returns
`(false, err)`, a hit returns `(true, nil)`, otherwise continue. -/
def checkLoop
    (existsMacro : ExecutionStore → String → String → String → ExecStatus → String →
      Bool × Option Unit)
    (dbOk : Bool) (st : ExecutionStore) (identifier : executionIdentifier) :
    List ExecStatus → Bool × Option Unit
  | [] => (false, none)
  | status :: rest =>
    let r :=
      if identifier.BenchmarkType == "micro" then
        existsExecution dbOk st identifier.GitRef identifier.Source
          identifier.BenchmarkType status
      else
        existsMacro st identifier.GitRef identifier.Source identifier.BenchmarkType
          status identifier.PlannerVersion
    match r with
    | (_, some e) => (false, some e)
    | (ex, none) =>
      if ex then (true, none) else checkLoop existsMacro dbOk st identifier rest

/-- Embeds `Server.checkIfExecutionExists`: its `checkStatus` list holds the
single entry `{status: StatusFinished, today: false}` (the `today` field is
unused by the function's body). `existsMacro` abstracts
`exec.ExistsMacrobenchmark`, whose definition is outside these sources. -/
def checkIfExecutionExists
    (existsMacro : ExecutionStore → String → String → String → ExecStatus → String →
      Bool × Option Unit)
    (dbOk : Bool) (st : ExecutionStore) (identifier : executionIdentifier) :
    Bool × Option Unit :=
  checkLoop existsMacro dbOk st identifier [ExecStatus.finished]

/-- Modelled from the spec: a run as the spec's data model describes it, bearing
its full composite `RunIdentifier` (source, gitRef, benchmarkType,
plannerVersion, pullRequestNumber) and a status. Used to state the spec's
dedup predicate, which the code's store check is compared against. -/
structure SpecRun where
  identifier : executionIdentifier
  status : ExecStatus
  deriving DecidableEq, Repr

/-- Modelled from the spec: "a Finished run with that identifier already
exists in the Run Record Store" / "Finished run matching
gitRef+source+type+plannerVersion+pullRequestNumber" — a Finished run
matching every field of a submitted identifier. -/
def specExistsFinishedAllFields (runs : List SpecRun) (identifier : executionIdentifier) :
    Bool :=
  runs.any fun rec => rec.status == ExecStatus.finished && rec.identifier == identifier

/-- The `execution` row the code records for a run: the INSERT of
`Exec.Prepare` writes only uuid, status, source, git_ref and type — the run's
planner version and pull request number are not among its columns. -/
def specRunRow (u : String) (rec : SpecRun) : ExecutionRow :=
  { uuid := u, status := rec.status, source := rec.identifier.Source,
    gitRef := rec.identifier.GitRef, typeOf := rec.identifier.BenchmarkType,
    startedAt := none, finishedAt := none }

/-! The Exec lifecycle: `Exec.Prepare` and `Exec.Execute`. -/

/-- The errors surfaced along `Exec.Prepare` and `Exec.Execute`'s paths.
Each constructor stands for one distinct `return err` site: `notPrepared` for
`errors.New(ErrorNotPrepared)`, `timeout` for the run step exceeding the
deadline of `ExecuteWithTimeout`. -/
inductive ExecErr
  | notPrepared
  | mysqlNewFailed
  | insertFailed
  | startedUpdateFailed
  | dirCreateFailed
  | infraPrepareFailed
  | provisionFailed
  | ansibleIPsFailed
  | ansibleConfigFailed
  | runFailed
  | timeout
  deriving DecidableEq, Repr

/-- The fields of the Go `Exec` struct that the lifecycle control flow reads
or writes: the run's identity columns, the `prepared` flag and the
configuration path resolved during `Prepare`. -/
structure ExecModel where
  uuid : String
  source : String
  gitRef : String
  typeOf : String
  prepared : Bool
  configPath : String
  deriving DecidableEq, Repr

/-- The row written by `Prepare`'s
`INSERT INTO execution(uuid, status, source, git_ref, type)` with status
`StatusCreated` (no timestamp columns are set by the INSERT). -/
def createdRow (e : ExecModel) : ExecutionRow :=
  { uuid := e.uuid, status := ExecStatus.created, source := e.source,
    gitRef := e.gitRef, typeOf := e.typeOf, startedAt := none, finishedAt := none }

/-- Outcomes of the external steps `Prepare` takes, in program order:
`mysql.New`, the INSERT, `prepareDirectories`, `Infra.Prepare`; plus the
value of `viper.ConfigFileUsed()` read when `configPath` is empty. -/
structure PrepareEnv where
  mysqlNewOk : Bool
  insertOk : Bool
  dirOk : Bool
  infraPrepareOk : Bool
  viperConfigFile : String
  deriving DecidableEq, Repr

/-- Embeds `Exec.Prepare`: a no-op when already prepared; otherwise connect to
the store, insert the Created record, set infrastructure tags, create the
working directory, run the infrastructure preparation, resolve `configPath`,
and only then set `prepared`. Returns (error, updated Exec, updated store);
every error path returns the Exec unchanged. -/
def ExecPrepare (env : PrepareEnv) (e : ExecModel) (st : ExecutionStore) :
    Option ExecErr × ExecModel × ExecutionStore :=
  if e.prepared then (none, e, st)
  else if !env.mysqlNewOk then (some ExecErr.mysqlNewFailed, e, st)
  else if !env.insertOk then (some ExecErr.insertFailed, e, st)
  else
    let st1 := st ++ [createdRow e]
    if !env.dirOk then (some ExecErr.dirCreateFailed, e, st1)
    else if !env.infraPrepareOk then (some ExecErr.infraPrepareFailed, e, st1)
    else
      let e1 := { e with
        configPath := if e.configPath == "" then env.viperConfigFile else e.configPath,
        prepared := true }
      (none, e1, st1)

/-- The store statements `Execute` issues, in order: the Started update
(`UPDATE execution SET started_at = CURRENT_TIME, status = ?`) and the
deferred terminal update (`UPDATE execution SET finished_at = CURRENT_TIME,
status = ?`). -/
inductive StoreStmt
  | updStarted (uuid : String)
  | updTerminal (uuid : String) (status : ExecStatus)
  deriving DecidableEq, Repr

/-- Applies the Started update to the store. -/
def updateStarted (st : ExecutionStore) (uuid : String) (t : Nat) : ExecutionStore :=
  st.map fun r =>
    if r.uuid == uuid then { r with status := ExecStatus.started, startedAt := some t }
    else r

/-- Applies a terminal-status update to the store. -/
def updateTerminal (st : ExecutionStore) (uuid : String) (status : ExecStatus)
    (t : Nat) : ExecutionStore :=
  st.map fun r =>
    if r.uuid == uuid then { r with status := status, finishedAt := some t }
    else r

/-- Outcome of the infrastructure run step `e.Infra.Run(&e.AnsibleConfig)`:
normal completion, an error return, exceeding the deadline of
`ExecuteWithTimeout` (surfaced as an error), or a panic inside the step. -/
inductive RunOutcome
  | ok
  | fail
  | deadlineExpired
  | panics
  deriving DecidableEq, Repr

/-- Outcomes of the external steps `Execute` takes, in program order: the
Started UPDATE, `provision`, `ansible.AddIPsToFiles`,
`ansible.AddLocalConfigPathToFiles`, and the run step; with the instants
recorded by the two timestamped updates. -/
structure ExecuteEnv where
  startedUpdateOk : Bool
  provisionOk : Bool
  addIPsOk : Bool
  addConfigOk : Bool
  runOutcome : RunOutcome
  tStart : Nat
  tEnd : Nat
  deriving DecidableEq, Repr

/-- How a Go function invocation ends: a normal return carrying the error
result, or a panic propagating out of it. -/
inductive GoResult
  | ret (err : Option ExecErr)
  | panicked
  deriving DecidableEq, Repr

/-- The body of `Execute` without its deferred function: each exit path,
in program order, with the store after the successfully applied updates and
the trace of applied store statements. A failed Started UPDATE leaves the
store unchanged and returns its error. When the run step panics, the panic
propagates (`GoResult.panicked`). -/
def executeBody (env : ExecuteEnv) (e : ExecModel) (st : ExecutionStore) :
    GoResult × ExecutionStore × List StoreStmt :=
  if !e.prepared then (GoResult.ret (some ExecErr.notPrepared), st, [])
  else if !env.startedUpdateOk then
    (GoResult.ret (some ExecErr.startedUpdateFailed), st, [])
  else
    let st1 := updateStarted st e.uuid env.tStart
    let tr1 := [StoreStmt.updStarted e.uuid]
    if !env.provisionOk then (GoResult.ret (some ExecErr.provisionFailed), st1, tr1)
    else if !env.addIPsOk then (GoResult.ret (some ExecErr.ansibleIPsFailed), st1, tr1)
    else if !env.addConfigOk then
      (GoResult.ret (some ExecErr.ansibleConfigFailed), st1, tr1)
    else
      match env.runOutcome with
      | RunOutcome.ok => (GoResult.ret none, st1, tr1)
      | RunOutcome.fail => (GoResult.ret (some ExecErr.runFailed), st1, tr1)
      | RunOutcome.deadlineExpired => (GoResult.ret (some ExecErr.timeout), st1, tr1)
      | RunOutcome.panics => (GoResult.panicked, st1, tr1)

/-- The status the deferred function writes: `StatusFinished` when the named
error result is nil at that moment, `StatusFailed` otherwise. When the run
step panics, the named `err` is still nil (its last assignment before the
panic was the nil-checked `AddLocalConfigPathToFiles` result), so the defer
writes `StatusFinished`. -/
def deferStatus : GoResult → ExecStatus
  | GoResult.ret none => ExecStatus.finished
  | GoResult.ret (some _) => ExecStatus.failed
  | GoResult.panicked => ExecStatus.finished

/-- The full result of an `Execute` invocation: how it ended, the store after
it, and the trace of store statements it applied. -/
structure ExecuteOut where
  result : GoResult
  store : ExecutionStore
  trace : List StoreStmt
  deriving DecidableEq, Repr

/-- Embeds `Exec.Execute`: runs the body, then the deferred function, which
unconditionally issues the terminal-status UPDATE on every exit path —
normal return, error return, and panic alike. -/
def ExecExecute (env : ExecuteEnv) (e : ExecModel) (st : ExecutionStore) : ExecuteOut :=
  let b := executeBody env e st
  { result := b.1,
    store := updateTerminal b.2.1 e.uuid (deferStatus b.1) env.tEnd,
    trace := b.2.2 ++ [StoreStmt.updTerminal e.uuid (deferStatus b.1)] }

/-! Concrete values used to instantiate hypotheses of the theorems below. -/

/-- A trivial stand-in for `ExistsMacrobenchmark` used at concrete inputs. -/
def emTrivial : ExecutionStore → String → String → String → ExecStatus → String →
    Bool × Option Unit :=
  fun _ _ _ _ _ _ => (false, none)

/-- A concrete micro-benchmark identifier. -/
def idW : executionIdentifier :=
  { Source := "cron", GitRef := "abc123", BenchmarkType := "micro",
    PlannerVersion := "V3", PullNb := 0 }

/-- A concrete store holding one finished run matching `idW`. -/
def stW : ExecutionStore :=
  [{ uuid := "u1", status := ExecStatus.finished, source := "cron",
     gitRef := "abc123", typeOf := "micro", startedAt := some 1,
     finishedAt := some 2 }]

/-- A micro-benchmark identifier submitted from pull request 1. -/
def idPull1 : executionIdentifier :=
  { Source := "pull_request", GitRef := "abc123", BenchmarkType := "micro",
    PlannerVersion := "V3", PullNb := 1 }

/-- The same submission but from pull request 2: it differs from `idPull1`
only in its pull request number. -/
def idPull2 : executionIdentifier :=
  { Source := "pull_request", GitRef := "abc123", BenchmarkType := "micro",
    PlannerVersion := "V3", PullNb := 2 }

/-- One Finished run, of identifier `idPull1`. -/
def specRunsPull1 : List SpecRun :=
  [{ identifier := idPull1, status := ExecStatus.finished }]

/-- What the store records for the runs of `specRunsPull1`. -/
def storePull1 : ExecutionStore :=
  [specRunRow "u9" { identifier := idPull1, status := ExecStatus.finished }]

/-- An execution environment in which every external step succeeds. -/
def envAllOk : ExecuteEnv :=
  { startedUpdateOk := true, provisionOk := true, addIPsOk := true,
    addConfigOk := true, runOutcome := RunOutcome.ok, tStart := 3, tEnd := 4 }

/-- A prepared Exec driving the run "u1". -/
def execPrepared : ExecModel :=
  { uuid := "u1", source := "cron", gitRef := "abc123", typeOf := "micro",
    prepared := true, configPath := "cfg" }

/-- The same Exec before `Prepare` has completed. -/
def execUnprepared : ExecModel :=
  { execPrepared with prepared := false }

/-- A store holding the Created record of "u1". -/
def stCreated : ExecutionStore := [createdRow execPrepared]

/-- The "u1" row after a successful `Execute` under `envAllOk`. -/
def rowFinishedW : ExecutionRow :=
  { uuid := "u1", status := ExecStatus.finished, source := "cron",
    gitRef := "abc123", typeOf := "micro", startedAt := some 3,
    finishedAt := some 4 }

/-- A Prepare environment failing at working-directory creation. -/
def envDirFail : PrepareEnv :=
  { mysqlNewOk := true, insertOk := true, dirOk := false, infraPrepareOk := true,
    viperConfigFile := "viper.yaml" }

/-! The execution queue and its scheduler: `executeElement` and
`cronExecutionQueueWatcher`. -/

/-- A queue element (`executionQueueElement`): the fields read and written by
`executeElement`, `compareElement` and `cronExecutionQueueWatcher`. `retry`
is the remaining retry budget, decremented on failure; `executing` is set by
the dispatch loop. -/
structure QElem where
  identifier : executionIdentifier
  config : String
  retry : Int
  executing : Bool
  notifyAlways : Bool
  compareWith : List executionIdentifier
  deriving DecidableEq, Repr

/-- `delete(queue, identifier)` on the identifier-keyed queue mapping,
modelled as a list of elements: removes the element(s) with that key. -/
def eraseIdentifier (q : List QElem) (id : executionIdentifier) : List QElem :=
  q.filter fun el => !(el.identifier == id)

/-- Embeds `Server.executeElement` acting on the queue mapping and the shared
in-flight counter. `execOk n` is the outcome of the n-th `executeSingle`
attempt for this element (`executeSingle` drives the Exec lifecycle; its
external outcome is the environment here). Returns the queue, the counter,
the number of execution attempts made, and the number of comparison tasks
dispatched. A negative budget removes the element (when present) and
decrements the counter; a failure decrements `retry` and re-invokes
`executeElement` on the same element in place; a success dispatches the
comparison, removes the element and decrements the counter. -/
def executeElement (execOk : Nat → Bool) (attempt : Nat) (q : List QElem) (count : Int)
    (el : QElem) : List QElem × Int × Nat × Nat :=
  if el.retry < 0 then
    (eraseIdentifier q el.identifier, count - 1, 0, 0)
  else if execOk attempt then
    (eraseIdentifier q el.identifier, count - 1, 1, 1)
  else
    let r := executeElement execOk (attempt + 1) q count { el with retry := el.retry - 1 }
    (r.1, r.2.1, r.2.2.1 + 1, r.2.2.2)
termination_by (el.retry + 1).toNat
decreasing_by
  simp only [not_lt] at *
  omega

/-- Sets an element's `executing` flag (the dispatch loop's
`element.executing = true`). -/
def markExecuting (el : QElem) : QElem :=
  { el with executing := true }

/-- One pass of the dispatch loop's scan: mark the first element with
`executing = false` (returning the updated queue), or `none` when every
element is already executing. -/
def markFirstNonExecuting : List QElem → Option (List QElem)
  | [] => none
  | el :: rest =>
    if el.executing then
      match markFirstNonExecuting rest with
      | none => none
      | some rest1 => some (el :: rest1)
    else some (markExecuting el :: rest)

/-- The shared scheduler state: the queue mapping, the in-flight counter
`currentCountExec`, and the number of dispatched execution units that have
not yet completed (the running `executeElement` goroutines). -/
structure SchedState where
  queue : List QElem
  count : Int
  inFlight : Nat
  deriving DecidableEq, Repr

/-- Embeds one tick of `Server.cronExecutionQueueWatcher`: under the mutex,
skip the tick entirely when `currentCountExec >= maxConcurJob`; otherwise
mark at most one non-executing element, increment the counter for it and
dispatch it as a new execution unit. -/
def cronTick (maxConcurJob : Int) (s : SchedState) : SchedState :=
  if s.count ≥ maxConcurJob then s
  else
    match markFirstNonExecuting s.queue with
    | none => s
    | some q1 => { queue := q1, count := s.count + 1, inFlight := s.inFlight + 1 }

/-- The atomic steps of the scheduler, interleaved in any order: a dispatch
tick; a dispatched unit completing with success (counter decremented, the
queue deletion being issued by the spawned comparison goroutine); a unit
completing with its retry budget exhausted (element deleted, counter
decremented); the comparison goroutine's deletion of a succeeded element;
and a new submission. -/
inductive SchedStep (maxConcurJob : Int) : SchedState → SchedState → Prop
  | tick (s : SchedState) : SchedStep maxConcurJob s (cronTick maxConcurJob s)
  | completeSuccess (s : SchedState) (h : 0 < s.inFlight) :
      SchedStep maxConcurJob s
        { queue := s.queue, count := s.count - 1, inFlight := s.inFlight - 1 }
  | completeExhausted (s : SchedState) (id : executionIdentifier) (h : 0 < s.inFlight) :
      SchedStep maxConcurJob s
        { queue := eraseIdentifier s.queue id, count := s.count - 1,
          inFlight := s.inFlight - 1 }
  | comparatorRemove (s : SchedState) (id : executionIdentifier) :
      SchedStep maxConcurJob s
        { queue := eraseIdentifier s.queue id, count := s.count, inFlight := s.inFlight }
  | submit (s : SchedState) (el : QElem) :
      SchedStep maxConcurJob s
        { queue := s.queue ++ [el], count := s.count, inFlight := s.inFlight }

/-- The states reachable from a start state with counter 0 and no running
execution unit, under any interleaving of scheduler steps. -/
inductive SchedReachable (maxConcurJob : Int) : SchedState → Prop
  | init (q : List QElem) : SchedReachable maxConcurJob ⟨q, 0, 0⟩
  | step {s t : SchedState} : SchedReachable maxConcurJob s →
      SchedStep maxConcurJob s t → SchedReachable maxConcurJob t

/-! The regression comparator: `Server.compareElement`. -/

/-- The comparator's environment over its polling timeline. `fetch t c` is
what `exec.GetFinishedExecution` answers for target `c` on poll tick `t`
(modelled from the spec, the function being outside these sources: `none`
is a store error, `some none` no Finished match yet, `some (some u)` a
Finished run with uuid `u`); `notifyOk t c` says whether
`sendNotificationForRegression` succeeds for target `c` on tick `t`. -/
structure CompareEnv where
  fetch : Nat → executionIdentifier → Option (Option String)
  notifyOk : Nat → executionIdentifier → Bool

/-- The inner `for _, comparer := range element.compareWith` scan of one poll
tick `t`: for each target in order, query the store; a store error returns
immediately, a match dispatches one notification (a notification error also
returns immediately) and increments `done`. Returns the targets notified on
this tick in order, the updated `done` counter, and whether the scan ran to
the end without error. -/
def compareScan (env : CompareEnv) (t : Nat) :
    List executionIdentifier → Nat → List executionIdentifier × Nat × Bool
  | [], done => ([], done, true)
  | c :: rest, done =>
    match env.fetch t c with
    | none => ([], done, false)
    | some none => compareScan env t rest done
    | some (some _) =>
      if env.notifyOk t c then
        let r := compareScan env t rest (done + 1)
        (c :: r.1, r.2.1, r.2.2)
      else ([c], done, false)

/-- How a `compareElement` invocation ends within the observed window:
its loop condition `done != len(compareWith)` became false (`completed`), a
store or notification error aborted it (`aborted`), or it was still running
when the observation window of `fuel` poll ticks ran out (`stillRunning`). -/
inductive CompareOutcome
  | completed
  | aborted
  | stillRunning
  deriving DecidableEq, Repr

/-- Embeds the outer `for done != len(element.compareWith)` loop of
`Server.compareElement`, observed for `fuel` poll ticks: each iteration
sleeps one tick, then scans every target. Returns every notification
dispatched, as (tick, target) pairs in dispatch order, and the outcome. -/
def compareLoop (env : CompareEnv) (compareWith : List executionIdentifier) :
    Nat → Nat → Nat → List (Nat × executionIdentifier) × CompareOutcome
  | 0, _, _ => ([], CompareOutcome.stillRunning)
  | fuel + 1, done, t =>
    if done == compareWith.length then ([], CompareOutcome.completed)
    else
      let scan := compareScan env t compareWith done
      let sentHere := scan.1.map fun c => (t, c)
      if scan.2.2 then
        let rest := compareLoop env compareWith fuel scan.2.1 (t + 1)
        (sentHere ++ rest.1, rest.2)
      else (sentHere, CompareOutcome.aborted)

/-- Embeds `Server.compareElement` for an element with the given
`compareWith` targets, starting with `done = 0` on tick 0, observed for
`fuel` ticks. -/
def compareElement (env : CompareEnv) (compareWith : List executionIdentifier)
    (fuel : Nat) : List (Nat × executionIdentifier) × CompareOutcome :=
  compareLoop env compareWith fuel 0 0

/-- A second micro-benchmark identifier, distinct from `idW`. -/
def idB : executionIdentifier :=
  { Source := "pull_request", GitRef := "def456", BenchmarkType := "micro",
    PlannerVersion := "V3", PullNb := 7 }

/-- A first comparison target for the comparator scenarios. -/
def idC : executionIdentifier :=
  { Source := "cron", GitRef := "abc123", BenchmarkType := "oltp",
    PlannerVersion := "Gen4", PullNb := 0 }

/-- A second comparison target for the comparator scenarios. -/
def idD : executionIdentifier :=
  { Source := "cron", GitRef := "def456", BenchmarkType := "oltp",
    PlannerVersion := "Gen4", PullNb := 0 }

/-- A pending queue element for `idW`. -/
def elW : QElem :=
  { identifier := idW, config := "cfg", retry := 2, executing := false,
    notifyAlways := false, compareWith := [] }

/-- A comparator environment in which target `idW` has a Finished match on
every poll tick while target `idB` never matches; notifications always
succeed. -/
def envCmpDouble : CompareEnv :=
  { fetch := fun _ c => if c == idW then some (some "u1") else some none,
    notifyOk := fun _ _ => true }

/-- A comparator environment in which target `idC` has a Finished match on
every poll tick while target `idD` never matches; notifications always
succeed. -/
def envCmpEarly : CompareEnv :=
  { fetch := fun _ c => if c == idC then some (some "u2") else some none,
    notifyOk := fun _ _ => true }

/-! Helper lemmas. -/

theorem exists_filter_bool (p : ExecutionRow → Bool) (l : List ExecutionRow) :
    (!(l.filter p).isEmpty) = true ↔ ∃ r ∈ l, p r = true := by
  induction l with
  | nil => simp
  | cons a t ih =>
    by_cases hpa : p a = true
    · simp [List.filter_cons, hpa]
    · simp only [List.filter_cons, hpa, if_neg, Bool.false_eq_true, ite_false]
      rw [ih]
      constructor
      · rintro ⟨r, hr, hpr⟩
        exact ⟨r, List.mem_cons_of_mem a hr, hpr⟩
      · rintro ⟨r, hr, hpr⟩
        rcases List.mem_cons.1 hr with h | h
        · exact absurd (h ▸ hpr) hpa
        · exact ⟨r, h, hpr⟩

theorem rowMatchesExists_iff (gitRef source typeOf : String) (status : ExecStatus)
    (r : ExecutionRow) :
    rowMatchesExists gitRef source typeOf status r = true ↔
      r.status = status ∧ r.gitRef = gitRef ∧ r.typeOf = typeOf ∧ r.source = source := by
  simp [rowMatchesExists, and_assoc]

/-- C9: when the store's SELECT succeeds but yields zero matching rows,
`Exists` returns `(false, nil)`; when the SELECT fails, it returns
`(false, err)` with the store error. -/
theorem exists_no_rows_false_nil (st : ExecutionStore) (gitRef source typeOf : String)
    (status : ExecStatus) :
    (st.filter (rowMatchesExists gitRef source typeOf status) = [] →
      existsExecution true st gitRef source typeOf status = (false, none)) ∧
    existsExecution false st gitRef source typeOf status = (false, some ()) := by
  constructor
  · intro h
    simp [existsExecution, h]
  · simp [existsExecution]

/-- C8 (amended): for a micro-benchmark identifier, the pre-insertion
duplicate check `checkIfExecutionExists` (backed by `exec.Exists`) answers
true exactly when the store contains a run with status Finished matching the
identifier's git reference, benchmark type and source — the fields the store
records for an execution; plannerVersion and pullRequestNumber are not
consulted. -/
theorem check_exists_micro_iff
    (existsMacro : ExecutionStore → String → String → String → ExecStatus → String →
      Bool × Option Unit)
    (st : ExecutionStore) (identifier : executionIdentifier)
    (h : identifier.BenchmarkType = "micro") :
    (checkIfExecutionExists existsMacro true st identifier).1 = true ↔
      ∃ r ∈ st, r.status = ExecStatus.finished ∧ r.gitRef = identifier.GitRef ∧
        r.typeOf = identifier.BenchmarkType ∧ r.source = identifier.Source := by
  have hmain : (checkIfExecutionExists existsMacro true st identifier).1
      = !(st.filter (rowMatchesExists identifier.GitRef identifier.Source
          identifier.BenchmarkType ExecStatus.finished)).isEmpty := by
    simp only [checkIfExecutionExists, checkLoop, h, beq_self_eq_true, if_true,
      existsExecution]
    cases hb : (st.filter (rowMatchesExists identifier.GitRef identifier.Source
        "micro" ExecStatus.finished)).isEmpty <;> rfl
  rw [hmain, exists_filter_bool]
  constructor
  · rintro ⟨r, hr, hpr⟩
    exact ⟨r, hr, (rowMatchesExists_iff _ _ _ _ r).1 hpr⟩
  · rintro ⟨r, hr, hpr⟩
    exact ⟨r, hr, (rowMatchesExists_iff _ _ _ _ r).2 hpr⟩

/-- Witness for C8 at a concrete store and identifier. -/
theorem check_exists_micro_iff_witness :
    idW.BenchmarkType = "micro" ∧
    ((checkIfExecutionExists emTrivial true stW idW).1 = true ↔
      ∃ r ∈ stW, r.status = ExecStatus.finished ∧ r.gitRef = idW.GitRef ∧
        r.typeOf = idW.BenchmarkType ∧ r.source = idW.Source) :=
  ⟨rfl, check_exists_micro_iff emTrivial stW idW rfl⟩

/-- C8 (counterexample): the claimed iff with "a Finished run matching every
field of the submitted identifier" is false at a concrete input. A Finished
run of `idPull1` is in the store; submitting `idPull2` — identical except for
its pull request number, so no Finished run matching every one of its fields
exists — still makes the micro duplicate check answer true, because the
check's SELECT (and the execution table itself) carries no planner version or
pull number. -/
theorem check_exists_micro_all_fields_cex :
    idPull2.BenchmarkType = "micro" ∧
    (checkIfExecutionExists emTrivial true storePull1 idPull2).1 = true ∧
    specExistsFinishedAllFields specRunsPull1 idPull2 = false ∧
    idPull1 ≠ idPull2 := by
  decide

theorem mem_updateTerminal_status (st : ExecutionStore) (u : String) (s : ExecStatus)
    (t : Nat) (r : ExecutionRow) (hr : r ∈ updateTerminal st u s t) (hu : r.uuid = u) :
    r.status = s := by
  rcases List.mem_map.1 hr with ⟨a, _, hfa⟩
  by_cases h : a.uuid = u
  · rw [← hfa]
    simp [h]
  · rw [← hfa] at hu
    simp only [beq_iff_eq, h, if_neg, ite_false] at hu

/-- C1: on every exit path of `Execute` — normal return, error return,
run-step panic, deadline expiry — the deferred function updates the run's
record to a terminal status before the invocation ends: Finished when the
error result is nil, Failed when it is non-nil; no record of the run is left
in status Started. -/
theorem execute_always_terminal (env : ExecuteEnv) (e : ExecModel) (st : ExecutionStore)
    (r : ExecutionRow) (hr : r ∈ (ExecExecute env e st).store) (hu : r.uuid = e.uuid) :
    (r.status = ExecStatus.finished ∨ r.status = ExecStatus.failed) ∧
    ((ExecExecute env e st).result = GoResult.ret none → r.status = ExecStatus.finished) ∧
    (∀ er : ExecErr, (ExecExecute env e st).result = GoResult.ret (some er) →
      r.status = ExecStatus.failed) := by
  have hr2 : r ∈ updateTerminal (executeBody env e st).2.1 e.uuid
      (deferStatus (executeBody env e st).1) env.tEnd := hr
  have hs : r.status = deferStatus (executeBody env e st).1 :=
    mem_updateTerminal_status _ _ _ _ r hr2 hu
  have hres : (ExecExecute env e st).result = (executeBody env e st).1 := rfl
  refine ⟨?_, ?_, ?_⟩
  · rw [hs]
    cases hb : (executeBody env e st).1 with
    | ret err => cases err <;> simp [deferStatus]
    | panicked => simp [deferStatus]
  · intro h
    rw [hres] at h
    rw [hs, h]
    rfl
  · intro er h
    rw [hres] at h
    rw [hs, h]
    rfl

/-- Witness for C1: a successful run of "u1" ends with its record Finished. -/
theorem execute_always_terminal_witness :
    rowFinishedW ∈ (ExecExecute envAllOk execPrepared stCreated).store ∧
    rowFinishedW.uuid = execPrepared.uuid ∧
    ((rowFinishedW.status = ExecStatus.finished ∨ rowFinishedW.status = ExecStatus.failed) ∧
     ((ExecExecute envAllOk execPrepared stCreated).result = GoResult.ret none →
       rowFinishedW.status = ExecStatus.finished) ∧
     (∀ er : ExecErr, (ExecExecute envAllOk execPrepared stCreated).result
        = GoResult.ret (some er) → rowFinishedW.status = ExecStatus.failed)) :=
  ⟨by decide, by decide,
    execute_always_terminal envAllOk execPrepared stCreated rowFinishedW
      (by decide) (by decide)⟩

/-- C7: when `Prepare` has not completed, `Execute` returns the NotPrepared
error; no Started update is issued, and no record of the run ends up in
status Started — the Started update happens only after the prepared check
passes. -/
theorem execute_not_prepared (env : ExecuteEnv) (e : ExecModel) (st : ExecutionStore)
    (h : e.prepared = false) :
    (ExecExecute env e st).result = GoResult.ret (some ExecErr.notPrepared) ∧
    (∀ u : String, StoreStmt.updStarted u ∉ (ExecExecute env e st).trace) ∧
    (∀ r ∈ (ExecExecute env e st).store, r.uuid = e.uuid →
      r.status ≠ ExecStatus.started) := by
  have hb : executeBody env e st = (GoResult.ret (some ExecErr.notPrepared), st, []) := by
    simp [executeBody, h]
  refine ⟨?_, ?_, ?_⟩
  · show (executeBody env e st).1 = _
    rw [hb]
  · intro u
    show StoreStmt.updStarted u ∉
      (executeBody env e st).2.2 ++
        [StoreStmt.updTerminal e.uuid (deferStatus (executeBody env e st).1)]
    rw [hb]
    simp
  · intro r hr hu
    have hr2 : r ∈ updateTerminal (executeBody env e st).2.1 e.uuid
        (deferStatus (executeBody env e st).1) env.tEnd := hr
    have hst : r.status = deferStatus (executeBody env e st).1 :=
      mem_updateTerminal_status _ _ _ _ r hr2 hu
    rw [hb] at hst
    rw [hst]
    simp [deferStatus]

/-- Witness for C7 at a concrete unprepared Exec. -/
theorem execute_not_prepared_witness :
    execUnprepared.prepared = false ∧
    ((ExecExecute envAllOk execUnprepared stCreated).result
        = GoResult.ret (some ExecErr.notPrepared) ∧
     (∀ u : String,
        StoreStmt.updStarted u ∉ (ExecExecute envAllOk execUnprepared stCreated).trace) ∧
     (∀ r ∈ (ExecExecute envAllOk execUnprepared stCreated).store,
        r.uuid = execUnprepared.uuid → r.status ≠ ExecStatus.started)) :=
  ⟨rfl, execute_not_prepared envAllOk execUnprepared stCreated rfl⟩

/-- C10: whenever `Prepare` returns a non-nil error the Exec is returned
unchanged — in particular its `prepared` flag is still false, so a later
`Prepare` call re-runs the whole preparation — and when the failure happened
after the record insertion (directory creation or infrastructure
preparation), the Created record written by the INSERT is still in the
store. -/
theorem prepare_error_not_prepared (env : PrepareEnv) (e : ExecModel) (st : ExecutionStore)
    (er : ExecErr) (h : (ExecPrepare env e st).1 = some er) :
    (ExecPrepare env e st).2.1 = e ∧ e.prepared = false ∧
    ((er = ExecErr.dirCreateFailed ∨ er = ExecErr.infraPrepareFailed) →
      createdRow e ∈ (ExecPrepare env e st).2.2) := by
  cases hp : e.prepared with
  | true =>
    rw [ExecPrepare, if_pos hp] at h
    exact Option.noConfusion h
  | false =>
    cases hm : env.mysqlNewOk with
    | false =>
      have hres : ExecPrepare env e st = (some ExecErr.mysqlNewFailed, e, st) := by
        simp [ExecPrepare, hp, hm]
      rw [hres] at h
      cases Option.some.inj h
      rw [hres]
      exact ⟨rfl, rfl, fun her => by rcases her with h2 | h2 <;> exact ExecErr.noConfusion h2⟩
    | true =>
      cases hi : env.insertOk with
      | false =>
        have hres : ExecPrepare env e st = (some ExecErr.insertFailed, e, st) := by
          simp [ExecPrepare, hp, hm, hi]
        rw [hres] at h
        cases Option.some.inj h
        rw [hres]
        exact ⟨rfl, rfl, fun her => by rcases her with h2 | h2 <;> exact ExecErr.noConfusion h2⟩
      | true =>
        cases hd : env.dirOk with
        | false =>
          have hres : ExecPrepare env e st
              = (some ExecErr.dirCreateFailed, e, st ++ [createdRow e]) := by
            simp [ExecPrepare, hp, hm, hi, hd]
          rw [hres] at h
          cases Option.some.inj h
          rw [hres]
          exact ⟨rfl, rfl, fun _ => by simp⟩
        | true =>
          cases hinf : env.infraPrepareOk with
          | false =>
            have hres : ExecPrepare env e st
                = (some ExecErr.infraPrepareFailed, e, st ++ [createdRow e]) := by
              simp [ExecPrepare, hp, hm, hi, hd, hinf]
            rw [hres] at h
            cases Option.some.inj h
            rw [hres]
            exact ⟨rfl, rfl, fun _ => by simp⟩
          | true =>
            have hres : (ExecPrepare env e st).1 = none := by
              simp [ExecPrepare, hp, hm, hi, hd, hinf]
            rw [hres] at h
            exact Option.noConfusion h

/-- Witness for C10: a `Prepare` failing at directory creation leaves the
Exec unprepared and the Created record in the store. -/
theorem prepare_error_not_prepared_witness :
    (ExecPrepare envDirFail execUnprepared []).1 = some ExecErr.dirCreateFailed ∧
    ((ExecPrepare envDirFail execUnprepared []).2.1 = execUnprepared ∧
     execUnprepared.prepared = false ∧
     ((ExecErr.dirCreateFailed = ExecErr.dirCreateFailed ∨
       ExecErr.dirCreateFailed = ExecErr.infraPrepareFailed) →
       createdRow execUnprepared ∈ (ExecPrepare envDirFail execUnprepared []).2.2)) :=
  ⟨by decide,
    prepare_error_not_prepared envDirFail execUnprepared [] ExecErr.dirCreateFailed
      (by decide)⟩

theorem executeElement_fail_aux (N : Nat) : ∀ (attempt : Nat) (q : List QElem)
    (count : Int) (el : QElem), el.retry = (N : Int) →
    executeElement (fun _ => false) attempt q count el
      = (eraseIdentifier q el.identifier, count - 1, N + 1, 0) := by
  induction N with
  | zero =>
    intro attempt q count el hel
    rw [executeElement, executeElement]
    simp [hel]
  | succ n ih =>
    intro attempt q count el hel
    have h0 : ¬ el.retry < 0 := by omega
    rw [executeElement, if_neg h0]
    have hel1 : ({ el with retry := el.retry - 1 } : QElem).retry = (n : Int) := by
      simp only [hel]
      omega
    rw [ih (attempt + 1) q count _ hel1]
    rfl

/-- C3: an element dispatched with retry budget N whose execution attempt
always fails makes exactly N + 1 sequential attempts (1 initial + N retries,
retried in place: the queue mapping is untouched until the end); after the
last failure the element is removed from the queue, the in-flight counter is
decremented exactly once, and no comparison task is dispatched. -/
theorem retry_budget_exhaustion (N : Nat) (q : List QElem) (count : Int) (el : QElem) :
    executeElement (fun _ => false) 0 q count { el with retry := (N : Int) }
      = (eraseIdentifier q el.identifier, count - 1, N + 1, 0) :=
  executeElement_fail_aux N 0 q count { el with retry := (N : Int) } rfl

theorem sched_invariant (m : Int) (s : SchedState) (hs : SchedReachable m s) :
    s.count = (s.inFlight : Int) ∧ (0 ≤ m → s.count ≤ m) := by
  induction hs with
  | init q => exact ⟨rfl, fun hm => hm⟩
  | @step s1 t h1 h2 ih =>
    rcases ih with ⟨hcnt, hle⟩
    cases h2 with
    | tick =>
      rw [cronTick]
      by_cases hge : s1.count ≥ m
      · rw [if_pos hge]
        exact ⟨hcnt, hle⟩
      · rw [if_neg hge]
        cases hmark : markFirstNonExecuting s1.queue with
        | none => exact ⟨hcnt, hle⟩
        | some q1 =>
          constructor
          · show s1.count + 1 = ((s1.inFlight + 1 : Nat) : Int)
            omega
          · intro hm
            show s1.count + 1 ≤ m
            omega
    | completeSuccess h =>
      constructor
      · show s1.count - 1 = ((s1.inFlight - 1 : Nat) : Int)
        omega
      · intro hm
        have := hle hm
        show s1.count - 1 ≤ m
        omega
    | completeExhausted id h =>
      constructor
      · show s1.count - 1 = ((s1.inFlight - 1 : Nat) : Int)
        omega
      · intro hm
        have := hle hm
        show s1.count - 1 ≤ m
        omega
    | comparatorRemove id => exact ⟨hcnt, hle⟩
    | submit el => exact ⟨hcnt, hle⟩

/-- C4: in every state reachable under any interleaving of dispatch ticks,
completions (successful, failed or retry-exhausted), comparator deletions and
submissions, the shared in-flight counter satisfies
0 ≤ currentCountExec ≤ maxConcurJob. -/
theorem inflight_counter_bounds (m : Int) (s : SchedState) (hm : 0 ≤ m)
    (hs : SchedReachable m s) : 0 ≤ s.count ∧ s.count ≤ m := by
  rcases sched_invariant m s hs with ⟨hcnt, hle⟩
  constructor
  · rw [hcnt]
    omega
  · exact hle hm

/-- Witness for C4: the state after one dispatch tick from an initial state
with one pending element, ceiling 1. -/
theorem inflight_counter_bounds_witness :
    0 ≤ (1 : Int) ∧
    (0 ≤ (cronTick 1 ⟨[elW], 0, 0⟩).count ∧ (cronTick 1 ⟨[elW], 0, 0⟩).count ≤ 1) :=
  ⟨by decide,
    inflight_counter_bounds 1 (cronTick 1 ⟨[elW], 0, 0⟩) (by decide)
      (SchedReachable.step (SchedReachable.init [elW]) (SchedStep.tick _))⟩

theorem markFirstNonExecuting_spec (q : List QElem) :
    (markFirstNonExecuting q = none ∧ ∀ el ∈ q, el.executing = true) ∨
    (∃ l1 el l2, q = l1 ++ el :: l2 ∧ (∀ x ∈ l1, x.executing = true) ∧
      el.executing = false ∧
      markFirstNonExecuting q = some (l1 ++ markExecuting el :: l2)) := by
  induction q with
  | nil => exact Or.inl ⟨rfl, by simp⟩
  | cons a rest ih =>
    cases ha : a.executing with
    | false =>
      right
      exact ⟨[], a, rest, rfl, by simp, ha, by simp [markFirstNonExecuting, ha]⟩
    | true =>
      rcases ih with ⟨hnone, hall⟩ | ⟨l1, el, l2, hq, hl1, hel, hmark⟩
      · left
        constructor
        · simp [markFirstNonExecuting, ha, hnone]
        · intro x hx
          rcases List.mem_cons.1 hx with rfl | hx
          · exact ha
          · exact hall x hx
      · right
        refine ⟨a :: l1, el, l2, by rw [hq, List.cons_append], ?_, hel, ?_⟩
        · intro x hx
          rcases List.mem_cons.1 hx with rfl | hx
          · exact ha
          · exact hl1 x hx
        · simp [markFirstNonExecuting, ha, hmark]

/-- C5: on one tick of the dispatch loop, when the in-flight counter is at or
above the ceiling the tick changes nothing; otherwise at most one element with
executing = false is marked executing = true and the counter is incremented by
exactly one for it — every other element, and the rest of the state, is
unchanged, so there is never more than one new dispatch per tick. -/
theorem tick_at_most_one_dispatch (m : Int) (s : SchedState) :
    (m ≤ s.count → cronTick m s = s) ∧
    (s.count < m →
      (cronTick m s = s ∧ ∀ el ∈ s.queue, el.executing = true) ∨
      (∃ l1 el l2, s.queue = l1 ++ el :: l2 ∧ (∀ x ∈ l1, x.executing = true) ∧
        el.executing = false ∧
        cronTick m s =
          { queue := l1 ++ markExecuting el :: l2, count := s.count + 1,
            inFlight := s.inFlight + 1 })) := by
  constructor
  · intro hge
    rw [cronTick, if_pos hge]
  · intro hlt
    have hng : ¬ s.count ≥ m := not_le.mpr hlt
    rw [cronTick, if_neg hng]
    rcases markFirstNonExecuting_spec s.queue with ⟨hnone, hall⟩ |
      ⟨l1, el, l2, hq, hl1, hel, hmark⟩
    · exact Or.inl ⟨by rw [hnone], hall⟩
    · exact Or.inr ⟨l1, el, l2, hq, hl1, hel, by rw [hmark]⟩

/-- C2 (evaluation at the failing input): with targets `idW` and `idB`, where
`idW` has a Finished match on every poll tick and `idB` never matches,
`compareElement` dispatches two notifications for the pair (element, idW) —
one on tick 0 and another on tick 1 — before its `done` counter reaches the
target count and the loop exits. The claimed at-most-one-notification-per-pair
idempotence does not hold. -/
theorem compare_double_notification :
    ((compareElement envCmpDouble [idW, idB] 5).1.filter fun p => p.2 == idW).length = 2 ∧
    (compareElement envCmpDouble [idW, idB] 5).1
      = [(0, idW), (1, idW)] ∧
    (compareElement envCmpDouble [idW, idB] 5).2 = CompareOutcome.completed := by
  decide

/-- C6 (evaluation at the failing input): with targets `idC` and `idD`, where
`idC` has a Finished match on every poll tick and `idD` never matches (its
fetch answer is "no Finished match" on every tick), `compareElement`
terminates (outcome completed) although target `idD` was never matched and
received no notification — termination is driven by the notification counter
reaching the number of targets, not by all targets having been matched. -/
theorem compare_terminates_with_unmatched_target :
    (compareElement envCmpEarly [idC, idD] 5).2 = CompareOutcome.completed ∧
    ((compareElement envCmpEarly [idC, idD] 5).1.filter fun p => p.2 == idD).length = 0 ∧
    (∀ t : Nat, envCmpEarly.fetch t idD = some none) :=
  ⟨by decide, by decide, fun _ => rfl⟩

end Arewefastyet
